import Mathlib

/-!
Shallow embedding of the Monte Carlo simulator component
(MonteCarloSimulator in the repository's single logic-bearing source file).

JavaScript numbers are idealised as rationals (ℚ), except where the exact
IEEE behaviour decides the outcome: `0 / 0` is `NaN`, `x / 0` for `x ≠ 0`
is `±Infinity`, `Math.floor` and `Math.min` propagate `NaN`, and
`bins[i]++` for `i` outside `0..9` (including `NaN` and `-Infinity`)
touches none of the ten array slots.  These cases are modelled explicitly
in `binEffect` below.
-/

namespace AlgoWizard

/-- Task from the source: an uncertain duration with a display name. -/
structure Task where
  name : String
  minDuration : ℚ
  maxDuration : ℚ
deriving DecidableEq

/-- SimulationResult from the source (shape of the engine's output). -/
structure SimulationResult where
  durations : List ℚ
  successCount : ℕ
  totalTrials : ℕ
  probability : ℚ
  threshold : ℚ
deriving DecidableEq

/-- DEFAULT_TASK_A from the source. -/
def DEFAULT_TASK_A : Task :=
  { name := "Task A", minDuration := 2, maxDuration := 4 }

/-- DEFAULT_TASK_B from the source. -/
def DEFAULT_TASK_B : Task :=
  { name := "Task B", minDuration := 3, maxDuration := 6 }

/-- DEFAULT_AVAILABLE_HOURS from the source. -/
def DEFAULT_AVAILABLE_HOURS : ℚ := 8

/-- DEFAULT_TRIALS from the source. -/
def DEFAULT_TRIALS : ℚ := 1000

/-- Math.min(...result.durations): minimum of a non-empty list
(the empty case, JS Infinity, is outside every claim and mapped to 0). -/
def listMin : List ℚ → ℚ
  | [] => 0
  | x :: xs => xs.foldl min x

/-- Math.max(...result.durations): maximum of a non-empty list. -/
def listMax : List ℚ → ℚ
  | [] => 0
  | x :: xs => xs.foldl max x

/-- Which of the ten array slots `bins[binIndex]++` increments for one
sample, for `binIndex = Math.min(Math.floor((duration - minDuration) /
binSize), numBins - 1)` (source lines 116-120).  `none` means no slot of
`bins[0..9]` is touched: with `binSize = 0` and `duration = minDuration`
the JS quotient is `NaN` (so `bins[NaN]++` is a no-op on the slots), with
`binSize = 0` and `duration < minDuration` it is `-Infinity`; with
`binSize = 0` and `duration > minDuration` it is `+Infinity`, which
`Math.min` clamps to 9.  For `binSize ≠ 0` the quotient is finite and the
slot is `min ⌊(duration - minDuration) / binSize⌋ 9` when that is ≥ 0. -/
def binEffect (minDuration binSize duration : ℚ) : Option ℕ :=
  if binSize = 0 then
    if minDuration < duration then some 9 else none
  else
    let binIndex : ℤ := min ⌊(duration - minDuration) / binSize⌋ 9
    if 0 ≤ binIndex then some binIndex.toNat else none

/-- One step of the `result.durations.forEach` loop: increment the slot
selected by `binEffect` (source lines 115-121). -/
def binStep (minDuration binSize : ℚ) (bins : ℕ → ℕ) (duration : ℚ) : ℕ → ℕ :=
  match binEffect minDuration binSize duration with
  | none => bins
  | some i => Function.update bins i (bins i + 1)

/-- The `bins` array after the forEach loop, as a count for each index
(`Array(numBins).fill(0)` then the forEach of source lines 113-121). -/
def binsOf (minDuration binSize : ℚ) (durations : List ℚ) : ℕ → ℕ :=
  durations.foldl (binStep minDuration binSize) (fun _ => 0)

/-- One element of the list returned by getHistogramData.  The source's
`range` field is the string label `binStart.toFixed(1) - binEnd.toFixed(1)`;
the two numbers it is formatted from are kept here instead of the string. -/
structure HistogramBin where
  binStart : ℚ
  binEnd : ℚ
  count : ℕ
  percentage : ℚ
  isSuccess : Bool
deriving DecidableEq

/-- getHistogramData (source lines 104-133).  `none` models the
`if (!result) return []` guard.  `numBins = 10`,
`binSize = (maxDuration - minDuration) / numBins`, then the forEach fills
the bins and `bins.map` builds the summaries. -/
def getHistogramData (result? : Option SimulationResult) : List HistogramBin :=
  match result? with
  | none => []
  | some result =>
    let minDuration := listMin result.durations
    let maxDuration := listMax result.durations
    let range := maxDuration - minDuration
    let numBins : ℕ := 10
    let binSize := range / (numBins : ℚ)
    let bins := binsOf minDuration binSize result.durations
    (List.range numBins).map (fun (index : ℕ) =>
      let binStart := minDuration + (index : ℚ) * binSize
      let binEnd := binStart + binSize
      { binStart := binStart
        binEnd := binEnd
        count := bins index
        percentage := (bins index : ℚ) / (result.totalTrials : ℚ) * 100
        isSuccess := decide (binEnd ≤ result.threshold) })

/-- The `binSize` local of source line 111:
`(maxDuration - minDuration) / numBins` with `numBins = 10`. -/
def binSizeOf (result : SimulationResult) : ℚ :=
  (listMax result.durations - listMin result.durations) / 10

/-- The `binStart` local of source line 124: `minDuration + index * binSize`. -/
def binStartOf (result : SimulationResult) (index : ℕ) : ℚ :=
  listMin result.durations + (index : ℚ) * binSizeOf result

/-- The `binEnd` local of source line 125: `binStart + binSize`. -/
def binEndOf (result : SimulationResult) (index : ℕ) : ℚ :=
  binStartOf result index + binSizeOf result

/-- Component state of MonteCarloSimulator: the eight useState cells. -/
structure UIState where
  taskA : Task
  taskB : Task
  availableHours : ℚ
  trials : ℚ
  inputError : String
  result : Option SimulationResult
  isAnimating : Bool
  animationProgress : ℚ

/-- validateInputs (source lines 34-67): runs the six checks in order; on
the first failing check it sets `inputError` to that check's message and
returns false, otherwise it clears `inputError` and returns true. -/
def validateInputs (s : UIState) : UIState × Bool :=
  if s.taskA.minDuration < 0 ∨ s.taskA.maxDuration < 0 then
    ({ s with inputError := "Task A durations must be positive" }, false)
  else if s.taskB.minDuration < 0 ∨ s.taskB.maxDuration < 0 then
    ({ s with inputError := "Task B durations must be positive" }, false)
  else if s.taskA.minDuration > s.taskA.maxDuration then
    ({ s with inputError := "Task A minimum duration must be less than or equal to maximum" }, false)
  else if s.taskB.minDuration > s.taskB.maxDuration then
    ({ s with inputError := "Task B minimum duration must be less than or equal to maximum" }, false)
  else if s.availableHours ≤ 0 then
    ({ s with inputError := "Available hours must be positive" }, false)
  else if s.trials < 100 ∨ s.trials > 10000 then
    ({ s with inputError := "Number of trials must be between 100 and 10,000" }, false)
  else
    ({ s with inputError := "" }, true)

/-- The engine, `runMonteCarloSimulation` from the utils module, seen from
this component as an opaque-to-the-caller function of the four forwarded
arguments.  Theorems quantify over every such function. -/
def Engine : Type := Task → Task → ℚ → ℚ → SimulationResult

/-- One firing of the setInterval callback (source lines 76-95): when the
previous animation progress has reached 100 the interval is cleared, the
animation stops, the engine runs once and its result is stored; otherwise
the progress advances by 4.  The returned Bool is true exactly when the
interval was cleared, which is also exactly when the engine was invoked. -/
def simulationTick (engine : Engine) (s : UIState) : UIState × Bool :=
  if s.animationProgress ≥ 100 then
    let simulationResult := engine s.taskA s.taskB s.availableHours s.trials
    ({ s with isAnimating := false
              result := some simulationResult
              animationProgress := 100 }, true)
  else
    ({ s with animationProgress := s.animationProgress + 4 }, false)

/-- Run-to-completion semantics of the interval: fire ticks until one
clears the interval (or fuel runs out).  Returns the final state and the
number of engine invocations that occurred. -/
def runTicks (engine : Engine) : ℕ → UIState → UIState × ℕ
  | 0, s => (s, 0)
  | fuel + 1, s =>
    let t := simulationTick engine s
    if t.2 then (t.1, 1) else runTicks engine fuel t.1

/-- runSimulation (source lines 69-96) under run-to-completion semantics
for the timer: validate; on failure return at once (the engine is never
invoked); on success start the animation at progress 0 and fire the
interval until it clears.  From progress 0 the interval always clears on
its 26th firing (progress 0, 4, ..., 100, then the clearing tick), so fuel
26 is exact.  Returns the final state and the engine invocation count. -/
def runSimulation (engine : Engine) (s : UIState) : UIState × ℕ :=
  let v := validateInputs s
  if v.2 then
    runTicks engine 26 { v.1 with isAnimating := true, animationProgress := 0 }
  else
    (v.1, 0)

/-- Qualitative banding of the interpretation tab. -/
inductive InterpretationBand where
  | high
  | moderate
  | low
deriving DecidableEq

/-- The band selected by the nested conditional of source lines 357-389:
`probability >= 0.8` renders the high card, otherwise `probability >= 0.5`
the moderate card, otherwise the low card. -/
def interpretationBand (result : SimulationResult) : InterpretationBand :=
  if result.probability ≥ 0.8 then .high
  else if result.probability ≥ 0.5 then .moderate
  else .low

/-- Initial component state, from the useState defaults of the source. -/
def initialState : UIState :=
  { taskA := DEFAULT_TASK_A
    taskB := DEFAULT_TASK_B
    availableHours := DEFAULT_AVAILABLE_HOURS
    trials := DEFAULT_TRIALS
    inputError := ""
    result := none
    isAnimating := false
    animationProgress := 0 }

/-- An arbitrary concrete engine, used to instantiate engine-polymorphic
theorems on concrete inputs. -/
def constantEngine : Engine :=
  fun _ _ _ _ =>
    { durations := [4, 6], successCount := 2, totalTrials := 2
      probability := 1, threshold := 8 }

/-! Concrete instances used to exercise the hypotheses of the theorems
above. -/

/-- Concrete engine result with three distinct durations 1, 2, 3. -/
def spreadResult : SimulationResult :=
  { durations := [1, 2, 3], successCount := 3, totalTrials := 3
    probability := 1, threshold := 8 }

/-- Concrete engine result with durations 0 and 10 around threshold 5. -/
def straddleResult : SimulationResult :=
  { durations := [0, 10], successCount := 1, totalTrials := 2
    probability := 1/2, threshold := 5 }

/-- Concrete engine result with probability 0.9. -/
def highBandResult : SimulationResult :=
  { durations := [4, 6], successCount := 2, totalTrials := 2
    probability := 9/10, threshold := 8 }

/-- Initial state with the trial count slid to 0, an invalid input. -/
def zeroTrialsState : UIState :=
  { initialState with trials := 0 }

/-- Concrete engine result with all durations identical (e.g. both tasks
degenerate at fixed durations summing to 5): the `range == 0` edge case. -/
def degenerateResult : SimulationResult :=
  { durations := [5, 5, 5], successCount := 3, totalTrials := 3
    probability := 1, threshold := 8 }

/-- Concrete engine result with two identical durations, satisfying the
data-model invariant `durations.length = totalTrials`. -/
def identicalPairResult : SimulationResult :=
  { durations := [7, 7], successCount := 2, totalTrials := 2
    probability := 1, threshold := 8 }

/-- C1: on an all-identical durations sequence the code does not place every
sample in bin 0.  It computes `binSize = 0`, every per-sample JS bin index is
`NaN` (`0 / 0`), `bins[NaN]++` touches no slot, and every one of the ten bin
counts is 0 — bin 0's count is 0, not `totalTrials = 3`.  The spec's required
division-by-zero guard (force `binIndex = 0`) is missing from the code. -/
theorem histogram_degenerate_all_bins_zero :
    (getHistogramData (some degenerateResult)).map (fun b => b.count)
        = [0, 0, 0, 0, 0, 0, 0, 0, 0, 0]
      ∧ degenerateResult.totalTrials = 3 := by
  constructor
  · norm_num [getHistogramData, degenerateResult, binsOf, binStep, binEffect,
      listMin, listMax, List.range_succ]
  · rfl

/-- C2: the bin counts do not always sum to `totalTrials`.  On the
all-identical durations sequence `[7, 7]` (non-empty, with
`durations.length = totalTrials = 2`) every per-sample bin index is `NaN`,
so the ten counts sum to 0, not 2. -/
theorem histogram_counts_sum_zero_on_identical :
    ((getHistogramData (some identicalPairResult)).map (fun b => b.count)).sum = 0
      ∧ identicalPairResult.totalTrials = 2
      ∧ identicalPairResult.durations.length = identicalPairResult.totalTrials
      ∧ identicalPairResult.durations ≠ [] := by
  refine ⟨?_, rfl, rfl, by simp [identicalPairResult]⟩
  norm_num [getHistogramData, identicalPairResult, binsOf, binStep, binEffect,
    listMin, listMax, List.range_succ]

/-! Helper lemmas about the embedded definitions, shared by the claim
theorems below. -/

theorem foldl_min_le_init (xs : List ℚ) (x : ℚ) : xs.foldl min x ≤ x := by
  induction xs generalizing x with
  | nil => exact le_refl x
  | cons a l ih => exact le_trans (ih (min x a)) (min_le_left x a)

theorem foldl_min_le_mem {xs : List ℚ} {a : ℚ} (x : ℚ) (h : a ∈ xs) :
    xs.foldl min x ≤ a := by
  induction xs generalizing x with
  | nil => cases h
  | cons b l ih =>
    rcases List.mem_cons.mp h with rfl | hmem
    · exact le_trans (foldl_min_le_init l (min x a)) (min_le_right x a)
    · exact ih _ hmem

theorem init_le_foldl_max (xs : List ℚ) (x : ℚ) : x ≤ xs.foldl max x := by
  induction xs generalizing x with
  | nil => exact le_refl x
  | cons a l ih => exact le_trans (le_max_left x a) (ih (max x a))

theorem mem_le_foldl_max {xs : List ℚ} {a : ℚ} (x : ℚ) (h : a ∈ xs) :
    a ≤ xs.foldl max x := by
  induction xs generalizing x with
  | nil => cases h
  | cons b l ih =>
    rcases List.mem_cons.mp h with rfl | hmem
    · exact le_trans (le_max_right x a) (init_le_foldl_max l (max x a))
    · exact ih _ hmem

theorem listMin_le_of_mem {l : List ℚ} {a : ℚ} (h : a ∈ l) : listMin l ≤ a := by
  cases l with
  | nil => cases h
  | cons x xs =>
    rcases List.mem_cons.mp h with rfl | hmem
    · exact foldl_min_le_init xs a
    · exact foldl_min_le_mem x hmem

theorem le_listMax_of_mem {l : List ℚ} {a : ℚ} (h : a ∈ l) : a ≤ listMax l := by
  cases l with
  | nil => cases h
  | cons x xs =>
    rcases List.mem_cons.mp h with rfl | hmem
    · exact init_le_foldl_max xs a
    · exact mem_le_foldl_max x hmem

theorem listMin_le_listMax {l : List ℚ} (h : l ≠ []) : listMin l ≤ listMax l := by
  cases l with
  | nil => exact absurd rfl h
  | cons x xs =>
    exact le_trans (listMin_le_of_mem (List.mem_cons_self x xs))
      (le_listMax_of_mem (List.mem_cons_self x xs))

theorem binStep_apply (minDuration binSize : ℚ) (bins : ℕ → ℕ) (duration : ℚ)
    (i : ℕ) :
    binStep minDuration binSize bins duration i
      = bins i + (if binEffect minDuration binSize duration = some i then 1 else 0) := by
  unfold binStep
  cases h : binEffect minDuration binSize duration with
  | none => simp [h]
  | some j =>
    by_cases hij : i = j
    · subst hij; simp [Function.update_apply]
    · simp only [Function.update_apply, h, Option.some_inj]
      rw [if_neg hij, if_neg (by omega)]
      omega

theorem foldl_binStep_apply (minDuration binSize : ℚ) (l : List ℚ)
    (bins : ℕ → ℕ) (i : ℕ) :
    (l.foldl (binStep minDuration binSize) bins) i
      = bins i + l.countP (fun s => decide (binEffect minDuration binSize s = some i)) := by
  induction l generalizing bins with
  | nil => simp
  | cons d l ih =>
    simp only [List.foldl_cons, ih, binStep_apply, List.countP_cons]
    simp only [decide_eq_true_eq]
    split <;> omega

theorem binsOf_apply (minDuration binSize : ℚ) (l : List ℚ) (i : ℕ) :
    binsOf minDuration binSize l i
      = l.countP (fun s => decide (binEffect minDuration binSize s = some i)) := by
  unfold binsOf
  simp [foldl_binStep_apply]

/-! Validation and the simulation run (claims about the UI state machine). -/

theorem validateInputs_result_unchanged (s : UIState) :
    (validateInputs s).1.result = s.result := by
  unfold validateInputs
  split_ifs <;> rfl

theorem validateInputs_false_error_nonempty (s : UIState)
    (h : (validateInputs s).2 = false) : (validateInputs s).1.inputError ≠ "" := by
  unfold validateInputs at h ⊢
  split_ifs at h ⊢
  all_goals simp_all

theorem validateInputs_true_state (s : UIState)
    (h : (validateInputs s).2 = true) :
    (validateInputs s).1 = { s with inputError := "" } := by
  unfold validateInputs at h ⊢
  split_ifs at h ⊢
  all_goals simp_all

theorem validateInputs_ignores_animation (s : UIState) (p : ℚ) (b : Bool) :
    validateInputs { s with animationProgress := p, isAnimating := b }
      = ({ (validateInputs s).1 with animationProgress := p, isAnimating := b },
          (validateInputs s).2) := by
  unfold validateInputs
  split_ifs <;> rfl

/-- C3: validateInputs returns false exactly on the inputs the spec says the
validator must reject: a negative duration for task A or B, min above max for
either task, non-positive available hours, or a trial count outside
[100, 10000]; on every other input it returns true. -/
theorem validateInputs_false_iff (s : UIState) :
    (validateInputs s).2 = false ↔
      (s.taskA.minDuration < 0 ∨ s.taskA.maxDuration < 0
        ∨ s.taskB.minDuration < 0 ∨ s.taskB.maxDuration < 0
        ∨ s.taskA.minDuration > s.taskA.maxDuration
        ∨ s.taskB.minDuration > s.taskB.maxDuration
        ∨ s.availableHours ≤ 0
        ∨ s.trials < 100 ∨ s.trials > 10000) := by
  unfold validateInputs
  split_ifs <;> simp_all <;> tauto

/-- C4: on any input rejected by validateInputs, runSimulation stops at the
validation step: it returns the state produced by validateInputs (which
carries a non-empty error message), the engine is invoked zero times (so no
random sampling happens and no result is produced), and the stored result is
exactly the one from before the call — for every possible engine. -/
theorem runSimulation_invalid_no_engine_call (engine : Engine) (s : UIState)
    (h : (validateInputs s).2 = false) :
    runSimulation engine s = ((validateInputs s).1, 0)
      ∧ (runSimulation engine s).1.result = s.result
      ∧ (runSimulation engine s).1.inputError ≠ "" := by
  have h1 : runSimulation engine s = ((validateInputs s).1, 0) := by
    simp only [runSimulation]
    rw [h]
    simp
  refine ⟨h1, ?_, ?_⟩
  · rw [h1]
    exact validateInputs_result_unchanged s
  · rw [h1]
    exact validateInputs_false_error_nonempty s h

theorem runTicks_clears (engine : Engine) :
    ∀ (k : ℕ) (m : ℕ) (s : UIState), s.animationProgress = 100 - 4 * (k : ℚ) →
    runTicks engine (k + 1 + m) s
      = ({ s with isAnimating := false
                  result := some (engine s.taskA s.taskB s.availableHours s.trials)
                  animationProgress := 100 }, 1) := by
  intro k
  induction k with
  | zero =>
    intro m s hs
    have hfuel : 0 + 1 + m = m + 1 := by omega
    rw [hfuel]
    unfold runTicks simulationTick
    rw [hs]
    norm_num
  | succ k ih =>
    intro m s hs
    have hfuel : k + 1 + 1 + m = (k + 1 + m) + 1 := by omega
    rw [hfuel]
    unfold runTicks
    have hlt : ¬ s.animationProgress ≥ 100 := by
      rw [hs]
      push_cast
      linarith
    unfold simulationTick
    rw [if_neg hlt]
    have hstep := ih m { s with animationProgress := s.animationProgress + 4 }
      (by simp only [hs]; push_cast; ring)
    simp [hstep]

/-- C9: the engine invocation in a valid run is decoupled from the cosmetic
animation timer: for every engine and every valid input state, however the
animation fields (`isAnimating`, `animationProgress`) are set beforehand,
`runSimulation` invokes the engine exactly once, stores exactly
`engine taskA taskB availableHours trials` (the validated inputs; the timer
state contributes nothing to the call or its result), and the stored result
is the same as from a run started with the animation fields untouched. -/
theorem engine_call_independent_of_animation (engine : Engine) (s : UIState)
    (p : ℚ) (b : Bool) (h : (validateInputs s).2 = true) :
    (runSimulation engine { s with animationProgress := p, isAnimating := b }).2 = 1
      ∧ (runSimulation engine { s with animationProgress := p, isAnimating := b }).1.result
          = some (engine s.taskA s.taskB s.availableHours s.trials)
      ∧ (runSimulation engine { s with animationProgress := p, isAnimating := b }).1.result
          = (runSimulation engine s).1.result := by
  have hval := validateInputs_true_state s h
  have hrun : ∀ (s' : UIState), (validateInputs s').2 = true →
      s'.taskA = s.taskA → s'.taskB = s.taskB →
      s'.availableHours = s.availableHours → s'.trials = s.trials →
      runSimulation engine s'
        = ({ (validateInputs s').1 with
              isAnimating := false
              result := some (engine s.taskA s.taskB s.availableHours s.trials)
              animationProgress := 100 }, 1) := by
    intro s' h' hA hB hH hT
    have hclear := runTicks_clears engine 25 0
      { (validateInputs s').1 with isAnimating := true, animationProgress := 0 }
      (by norm_num)
    have hfields : (validateInputs s').1.taskA = s.taskA
        ∧ (validateInputs s').1.taskB = s.taskB
        ∧ (validateInputs s').1.availableHours = s.availableHours
        ∧ (validateInputs s').1.trials = s.trials := by
      rw [validateInputs_true_state s' h']
      exact ⟨hA, hB, hH, hT⟩
    simp only [runSimulation, h', if_true]
    rw [show (25 : ℕ) + 1 + 0 = 26 from rfl] at hclear
    rw [hclear]
    simp [hfields.1, hfields.2.1, hfields.2.2.1, hfields.2.2.2]
  have hmod := validateInputs_ignores_animation s p b
  have hmodval : (validateInputs { s with animationProgress := p, isAnimating := b }).2 = true := by
    rw [hmod]
    exact h
  have e1 := hrun { s with animationProgress := p, isAnimating := b } hmodval rfl rfl rfl rfl
  have e2 := hrun s h rfl rfl rfl rfl
  refine ⟨by rw [e1], by rw [e1], by rw [e1, e2]⟩

theorem foldl_max_self_or_mem (xs : List ℚ) (x : ℚ) :
    xs.foldl max x = x ∨ xs.foldl max x ∈ xs := by
  induction xs generalizing x with
  | nil => exact Or.inl rfl
  | cons a l ih =>
    rcases ih (max x a) with hx | hmem
    · rcases max_choice x a with hc | hc
      · exact Or.inl (by rw [List.foldl_cons, hx, hc])
      · exact Or.inr (by rw [List.foldl_cons, hx, hc]; exact List.mem_cons_self a l)
    · exact Or.inr (List.mem_cons_of_mem a hmem)

theorem listMax_mem {l : List ℚ} (h : l ≠ []) : listMax l ∈ l := by
  cases l with
  | nil => exact absurd rfl h
  | cons x xs =>
    rcases foldl_max_self_or_mem xs x with hx | hmem
    · rw [listMax, hx]
      exact List.mem_cons_self x xs
    · exact List.mem_cons_of_mem x hmem

/-! Histogram structure lemmas and claims. -/

theorem getHistogramData_length (result : SimulationResult) :
    (getHistogramData (some result)).length = 10 := by
  simp [getHistogramData]

theorem getHistogramData_getElem? (result : SimulationResult) (i : ℕ)
    (hi : i < 10) :
    (getHistogramData (some result))[i]?
      = some
        { binStart := binStartOf result i
          binEnd := binEndOf result i
          count := binsOf (listMin result.durations) (binSizeOf result)
              result.durations i
          percentage := (binsOf (listMin result.durations) (binSizeOf result)
              result.durations i : ℚ) / (result.totalTrials : ℚ) * 100
          isSuccess := decide (binEndOf result i ≤ result.threshold) } := by
  simp [getHistogramData, binStartOf, binEndOf, binSizeOf,
    List.getElem?_map, List.getElem?_range, hi]

theorem binSizeOf_nonneg (result : SimulationResult)
    (h : result.durations ≠ []) : 0 ≤ binSizeOf result := by
  unfold binSizeOf
  have := listMin_le_listMax h
  have h10 : (0 : ℚ) < 10 := by norm_num
  exact div_nonneg (by linarith) (by norm_num)

/-- C6: a bin of getHistogramData is marked isSuccess exactly when its end
point `binStart + binSize` is at most the threshold; in particular a bin
whose range straddles the threshold (start at or below it, end strictly
above it) is marked failing.  The classification reads only the bin's end
point, never the individual samples. -/
theorem histogram_isSuccess_iff_binEnd_le_threshold (result : SimulationResult)
    (_h : result.durations ≠ []) (i : ℕ) (hi : i < 10) (b : HistogramBin)
    (hb : (getHistogramData (some result))[i]? = some b) :
    (b.isSuccess = true ↔ binEndOf result i ≤ result.threshold)
      ∧ (binStartOf result i ≤ result.threshold →
          result.threshold < binEndOf result i →
          b.isSuccess = false) := by
  rw [getHistogramData_getElem? result i hi] at hb
  injection hb with hb
  subst hb
  constructor
  · exact decide_eq_true_iff
  · intro h1 h2
    simp only [decide_eq_false_iff_not]
    exact not_le.mpr h2

/-- C10: the isSuccess flags are monotone along the bins — once a bin fails
(its end point exceeds the threshold), every later bin fails too, because
binSize is non-negative (max ≥ min of the durations) so bin end points are
non-decreasing in the index. -/
theorem histogram_isSuccess_prefix (result : SimulationResult)
    (h : result.durations ≠ []) (i j : ℕ) (hij : i < j) (hj : j < 10)
    (bi bj : HistogramBin)
    (hbi : (getHistogramData (some result))[i]? = some bi)
    (hbj : (getHistogramData (some result))[j]? = some bj)
    (hfail : bi.isSuccess = false) : bj.isSuccess = false := by
  have hi : i < 10 := lt_trans hij hj
  rw [getHistogramData_getElem? result i hi] at hbi
  rw [getHistogramData_getElem? result j hj] at hbj
  injection hbi with hbi
  injection hbj with hbj
  subst hbi
  subst hbj
  simp only [decide_eq_false_iff_not, not_le] at hfail ⊢
  have hsize := binSizeOf_nonneg result h
  have hcast : (i : ℚ) ≤ (j : ℚ) := by
    exact_mod_cast Nat.le_of_lt hij
  have hmono : binEndOf result i ≤ binEndOf result j := by
    unfold binEndOf binStartOf
    have := mul_le_mul_of_nonneg_right hcast hsize
    linarith
  exact lt_of_lt_of_le hfail hmono

/-- C5: when binSize is non-zero, every sample s of the durations sequence
is assigned the bin index `min ⌊(s - minD) / binSize⌋ 9`: per sample that is
the slot its increment goes to, each bin's count is the number of samples
whose formula value is that bin's index, and the sample equal to the maximum
duration gets index 9 (clamped from the out-of-range index 10). -/
theorem histogram_binIndex_formula (result : SimulationResult)
    (h : result.durations ≠ []) (hbs : binSizeOf result ≠ 0) :
    (∀ s ∈ result.durations,
        binEffect (listMin result.durations) (binSizeOf result) s
          = some (min ⌊(s - listMin result.durations) / binSizeOf result⌋ 9).toNat)
      ∧ (∀ (i : ℕ) (b : HistogramBin),
          (getHistogramData (some result))[i]? = some b →
          b.count = result.durations.countP
            (fun s =>
              decide ((min ⌊(s - listMin result.durations) / binSizeOf result⌋ 9).toNat = i)))
      ∧ binEffect (listMin result.durations) (binSizeOf result)
          (listMax result.durations) = some 9 := by
  have hpos : 0 < binSizeOf result :=
    lt_of_le_of_ne (binSizeOf_nonneg result h) (Ne.symm hbs)
  have hmem : ∀ s ∈ result.durations,
      binEffect (listMin result.durations) (binSizeOf result) s
        = some (min ⌊(s - listMin result.durations) / binSizeOf result⌋ 9).toNat := by
    intro s hs
    unfold binEffect
    rw [if_neg hbs]
    have h0 : (0 : ℚ) ≤ (s - listMin result.durations) / binSizeOf result :=
      div_nonneg (sub_nonneg.mpr (listMin_le_of_mem hs)) hpos.le
    have hfl : (0 : ℤ) ≤ ⌊(s - listMin result.durations) / binSizeOf result⌋ :=
      Int.floor_nonneg.mpr h0
    rw [if_pos (le_min hfl (by norm_num))]
  refine ⟨hmem, ?_, ?_⟩
  · intro i b hb
    by_cases hi : i < 10
    · rw [getHistogramData_getElem? result i hi] at hb
      injection hb with hb
      subst hb
      show binsOf (listMin result.durations) (binSizeOf result) result.durations i = _
      rw [binsOf_apply]
      refine List.countP_congr ?_
      intro s hs
      rw [hmem s hs]
      simp
    · rw [List.getElem?_eq_none (by rw [getHistogramData_length]; omega)] at hb
      cases hb
  · rw [hmem (listMax result.durations) (listMax_mem h)]
    have hq : (listMax result.durations - listMin result.durations)
        / binSizeOf result = 10 := by
      have hd : listMax result.durations - listMin result.durations ≠ 0 := by
        intro h0
        apply hbs
        unfold binSizeOf
        rw [h0]
        norm_num
      unfold binSizeOf
      field_simp
    rw [hq]
    have h9 : min ⌊(10 : ℚ)⌋ 9 = 9 := by norm_num
    rw [h9]
    rfl

/-- C7: every bin of getHistogramData reports
`percentage = count / totalTrials * 100`, and whenever the bin counts sum
to `totalTrials` (with the data-model invariant that `durations` is a
non-empty sequence of length `totalTrials`), the ten percentages sum to
exactly 100. -/
theorem histogram_percentage_formula (result : SimulationResult)
    (h : result.durations ≠ [])
    (hlen : result.durations.length = result.totalTrials) :
    (∀ b ∈ getHistogramData (some result),
        b.percentage = (b.count : ℚ) / (result.totalTrials : ℚ) * 100)
      ∧ (((getHistogramData (some result)).map (fun b => b.count)).sum
            = result.totalTrials →
          ((getHistogramData (some result)).map (fun b => b.percentage)).sum
            = 100) := by
  constructor
  · intro b hb
    simp only [getHistogramData, List.mem_map] at hb
    obtain ⟨i, _, rfl⟩ := hb
    rfl
  · intro hsum
    have hT : 0 < result.totalTrials := by
      rw [← hlen]
      exact List.length_pos.mpr h
    have hTQ : (result.totalTrials : ℚ) ≠ 0 := Nat.cast_ne_zero.mpr hT.ne'
    set c := binsOf (listMin result.durations) (binSizeOf result)
        result.durations with hc
    have hcounts : (getHistogramData (some result)).map (fun b => b.count)
        = (List.range 10).map c := by
      simp [getHistogramData, List.map_map, hc, binSizeOf]
    have hpcts : (getHistogramData (some result)).map (fun b => b.percentage)
        = (List.range 10).map
            (fun i => (c i : ℚ) / (result.totalTrials : ℚ) * 100) := by
      simp [getHistogramData, List.map_map, hc, binSizeOf]
    rw [hcounts] at hsum
    rw [hpcts]
    have hrw : (fun i => (c i : ℚ) / (result.totalTrials : ℚ) * 100)
        = fun i => (c i : ℚ) * (100 / (result.totalTrials : ℚ)) := by
      funext i
      ring
    rw [hrw]
    rw [List.sum_map_mul_right (List.range 10) (fun i => (c i : ℚ))
      (100 / (result.totalTrials : ℚ))]
    have hcast : ((List.range 10).map (fun i => (c i : ℚ))).sum
        = ((((List.range 10).map c).sum : ℕ) : ℚ) := by
      rw [Nat.cast_list_sum, List.map_map]
      rfl
    rw [hcast, hsum]
    field_simp

/-! Interpretation banding (claim about the interpretation tab). -/

/-- C8: the qualitative interpretation band depends only on
`result.probability`: at least 0.8 gives the high band, at least 0.5 but
below 0.8 the moderate band, below 0.5 the low band, and two results with
equal probability always land in the same band. -/
theorem interpretation_band_of_probability (result : SimulationResult) :
    (0.8 ≤ result.probability → interpretationBand result = .high)
      ∧ (0.5 ≤ result.probability → result.probability < 0.8 →
          interpretationBand result = .moderate)
      ∧ (result.probability < 0.5 → interpretationBand result = .low)
      ∧ (∀ other : SimulationResult,
          result.probability = other.probability →
          interpretationBand result = interpretationBand other) := by
  refine ⟨?_, ?_, ?_, ?_⟩
  · intro h1
    unfold interpretationBand
    rw [if_pos h1]
  · intro h1 h2
    unfold interpretationBand
    rw [if_neg (not_le.mpr h2), if_pos h1]
  · intro h1
    unfold interpretationBand
    rw [if_neg (by linarith : ¬ (0.8 : ℚ) ≤ result.probability),
      if_neg (not_le.mpr h1)]
  · intro other hp
    unfold interpretationBand
    rw [hp]


theorem validateInputs_false_iff_witness :
    (validateInputs zeroTrialsState).2 = false :=
  (validateInputs_false_iff zeroTrialsState).mpr
    (by
      right; right; right; right; right; right; right; left
      norm_num [zeroTrialsState, initialState, DEFAULT_TRIALS])

theorem runSimulation_invalid_no_engine_call_witness :
    runSimulation constantEngine zeroTrialsState
        = ((validateInputs zeroTrialsState).1, 0)
      ∧ (runSimulation constantEngine zeroTrialsState).1.result
          = zeroTrialsState.result
      ∧ (runSimulation constantEngine zeroTrialsState).1.inputError ≠ "" :=
  runSimulation_invalid_no_engine_call constantEngine zeroTrialsState
    (by
      norm_num [validateInputs, zeroTrialsState, initialState,
        DEFAULT_TASK_A, DEFAULT_TASK_B, DEFAULT_AVAILABLE_HOURS, DEFAULT_TRIALS])

theorem engine_call_independent_of_animation_witness :
    (runSimulation constantEngine
        { initialState with animationProgress := 55, isAnimating := true }).2 = 1
      ∧ (runSimulation constantEngine
          { initialState with animationProgress := 55, isAnimating := true }).1.result
          = some (constantEngine initialState.taskA initialState.taskB
              initialState.availableHours initialState.trials)
      ∧ (runSimulation constantEngine
          { initialState with animationProgress := 55, isAnimating := true }).1.result
          = (runSimulation constantEngine initialState).1.result :=
  engine_call_independent_of_animation constantEngine initialState 55 true
    (by
      norm_num [validateInputs, initialState,
        DEFAULT_TASK_A, DEFAULT_TASK_B, DEFAULT_AVAILABLE_HOURS, DEFAULT_TRIALS])

theorem histogram_binIndex_formula_witness :
    binEffect (listMin spreadResult.durations) (binSizeOf spreadResult)
        (listMax spreadResult.durations) = some 9 :=
  (histogram_binIndex_formula spreadResult
      (by simp [spreadResult])
      (by norm_num [binSizeOf, spreadResult, listMin, listMax])).2.2

theorem histogram_isSuccess_iff_binEnd_le_threshold_witness :
    (({ binStart := 1, binEnd := 6/5, count := 1, percentage := 100/3,
        isSuccess := true } : HistogramBin).isSuccess = true
      ↔ binEndOf spreadResult 0 ≤ spreadResult.threshold)
      ∧ (binStartOf spreadResult 0 ≤ spreadResult.threshold →
          spreadResult.threshold < binEndOf spreadResult 0 →
          ({ binStart := 1, binEnd := 6/5, count := 1, percentage := 100/3,
              isSuccess := true } : HistogramBin).isSuccess = false) :=
  histogram_isSuccess_iff_binEnd_le_threshold spreadResult
    (by simp [spreadResult]) 0 (by norm_num)
    { binStart := 1, binEnd := 6/5, count := 1, percentage := 100/3,
      isSuccess := true }
    (by
      rw [getHistogramData_getElem? spreadResult 0 (by norm_num)]
      norm_num [spreadResult, binStartOf, binEndOf, binSizeOf, listMin, listMax,
        binsOf, binStep, binEffect, Function.update_apply,
        show (9 : ℤ).toNat = 9 from rfl, show (5 : ℤ).toNat = 5 from rfl])

theorem histogram_percentage_formula_witness :
    ((getHistogramData (some spreadResult)).map (fun b => b.percentage)).sum
      = 100 :=
  (histogram_percentage_formula spreadResult
      (by simp [spreadResult]) (by simp [spreadResult])).2
    (by
      norm_num [getHistogramData, spreadResult, binsOf, binStep, binEffect,
        listMin, listMax, List.range_succ, Function.update_apply,
        show (9 : ℤ).toNat = 9 from rfl, show (5 : ℤ).toNat = 5 from rfl])

theorem histogram_isSuccess_prefix_witness :
    ({ binStart := 5, binEnd := 6, count := 0, percentage := 0,
        isSuccess := false } : HistogramBin).isSuccess = false :=
  histogram_isSuccess_prefix straddleResult (by simp [straddleResult])
    5 7 (by norm_num) (by norm_num)
    { binStart := 5, binEnd := 6, count := 0, percentage := 0,
      isSuccess := false }
    { binStart := 7, binEnd := 8, count := 0, percentage := 0,
      isSuccess := false }
    (by
      rw [getHistogramData_getElem? straddleResult 5 (by norm_num)]
      norm_num [straddleResult, binStartOf, binEndOf, binSizeOf, listMin,
        listMax, binsOf, binStep, binEffect, Function.update_apply,
        show (9 : ℤ).toNat = 9 from rfl, show (5 : ℤ).toNat = 5 from rfl])
    (by
      rw [getHistogramData_getElem? straddleResult 7 (by norm_num)]
      norm_num [straddleResult, binStartOf, binEndOf, binSizeOf, listMin,
        listMax, binsOf, binStep, binEffect, Function.update_apply,
        show (9 : ℤ).toNat = 9 from rfl, show (5 : ℤ).toNat = 5 from rfl])
    rfl

theorem interpretation_band_of_probability_witness :
    interpretationBand highBandResult = .high :=
  (interpretation_band_of_probability highBandResult).1
    (by norm_num [highBandResult])

end AlgoWizard
